import Mathlib

/-!
Verification development for the Geotrek-admin repository.

We shallowly embed the parts of the code the specification talks about:

* the CG44 import parsers (`src/.salt/files/cg44/parsers.py`): the
  `filter_eid` methods of the four trek parsers and the `filter_geom`
  method shared by `CG44TouristicContentParser` and `CG44POIParser`;
* the DEM loader management command
  (`src/geotrek/altimetry/management/commands/loaddem.py`): the control
  flow of `Command.handle`, with file-system and subprocess outcomes made
  explicit inputs and database writes made an explicit output trace;
* the topology / linear-referencing subsystem (the association maintainer
  and the geometry intersection engine).  Its implementation is not part
  of the sources here (only its test suite,
  `src/caminae/land/tests/tests.py`, is), so those operations are
  modelled from the specification, and checked against the behaviour the
  test suite pins down.
-/

namespace Geotrek

/-! ### CG44 parsers: eid filters -/

/-- `CG44PedestreTrekParser.filter_eid`: returns `'P-' + str(val)`;
the Python `str(val)` rendering of the input is taken as the input string. -/
def filter_eid_pedestre (v : String) : String := "P-" ++ v

/-- `CG44VTTTrekParser.filter_eid`: returns `'V-' + str(val)`. -/
def filter_eid_vtt (v : String) : String := "V-" ++ v

/-- `CG44EquestreTrekParser.filter_eid`: returns `'E-' + str(val)`. -/
def filter_eid_equestre (v : String) : String := "E-" ++ v

/-- `CG44AVeloTrekParser.filter_eid`: returns `'C-' + str(val)`. -/
def filter_eid_avelo (v : String) : String := "C-" ++ v

/-! ### CG44 parsers: geometry filter -/

/-- Errors a parser row filter can raise.  `rowImportError` models
`RowImportError` (caught by the import framework, skips the row);
`valueError` models an uncaught Python `ValueError` such as the one
`float()` raises on a non-numeric string. -/
inductive ImportErr where
  | rowImportError : String → ImportErr
  | valueError : ImportErr
  deriving DecidableEq, Repr

/-- A GEOS point: two coordinates and a spatial reference identifier. -/
structure GeosPoint where
  x : ℚ
  y : ℚ
  srid : ℕ
  deriving DecidableEq, Repr

/-- Modelled from the spec: `geom.transform(settings.SRID)` reprojects a
point into the configured project spatial reference.  The coordinate
arithmetic lives in the external GEOS/PROJ library, so it is modelled
abstractly as retagging the point with the target srid. -/
def specTransform (srid : ℕ) (pt : GeosPoint) : GeosPoint :=
  { pt with srid := srid }

/-- Numeric value of a list of decimal digit characters. -/
def digitsVal (l : List Char) : ℕ :=
  l.foldl (fun n c => 10 * n + (c.toNat - Char.toNat '0')) 0

/-- Modelled from the spec: Python's builtin `float()` on a string.
Accepts an optional sign, then decimal digits with an optional single
point; returns `none` (Python: raises `ValueError`) on anything else,
in particular on the empty string and on non-numeric text. -/
def pyFloat (s : String) : Option ℚ :=
  let step : Bool × List Char :=
    match s.data with
    | '-' :: rest => (true, rest)
    | '+' :: rest => (false, rest)
    | cs => (false, cs)
  let neg := step.1
  let intPart := step.2.takeWhile Char.isDigit
  let rest := step.2.dropWhile Char.isDigit
  let fracPart : Option (List Char) :=
    match rest with
    | [] => some []
    | '.' :: fr => if fr.all Char.isDigit then some fr else none
    | _ => none
  match fracPart with
  | none => none
  | some fr =>
    if intPart.isEmpty && fr.isEmpty then none
    else
      let mag : ℚ := (digitsVal intPart : ℚ) + (digitsVal fr : ℚ) / ((10 : ℚ) ^ fr.length)
      some (if neg then -mag else mag)

/-- `CG44TouristicContentParser.filter_geom` (identical to
`CG44POIParser.filter_geom`): given `(GmapLatitude, GmapLongitude)`
strings, raise `RowImportError` when either is empty, otherwise build
`Point(float(lng), float(lat), srid=4326)` and transform it to the
configured `settings.SRID`. -/
def filter_geom (settingsSrid : ℕ) (val : String × String) : Except ImportErr GeosPoint :=
  let lat := val.1
  let lng := val.2
  if lng = "" || lat = "" then
    Except.error (ImportErr.rowImportError
      "Required value for fields GmapLatitude and GmapLongitude.")
  else
    match pyFloat lng, pyFloat lat with
    | some xv, some yv => Except.ok (specTransform settingsSrid ⟨xv, yv, 4326⟩)
    | some _, none => Except.error ImportErr.valueError
    | none, _ => Except.error ImportErr.valueError

/-! ### Topology / linear-referencing subsystem

The association maintainer and the geometry intersection engine are not
among the sources here (only their test suite is), so they are modelled
from the specification, §4.1–§4.2.  Geometry is represented in
path-parametric coordinates: the raw geometric intersection of a zone's
polygon with a path is a list of `(start_fraction, end_fraction)`
sub-intervals of `[0,1]`; a path entirely outside the zone has raw
intersection `[]`, a path entirely inside has raw intersection
`[(0,1)]`. -/

/-- Modelled from the spec: the raw geometric intersection, per zone and
per path, of the zone's polygon with the path, expressed as sub-intervals
of the path's parametric length (the output of the exact set-intersection
plus arc-length mapping step of §4.1, before ordering and merging). -/
def Coverage : Type := ℕ → ℕ → List (ℚ × ℚ)

/-- Insert one interval into a list sorted by start fraction. -/
def insertIv (iv : ℚ × ℚ) : List (ℚ × ℚ) → List (ℚ × ℚ)
  | [] => [iv]
  | x :: xs => if iv.1 ≤ x.1 then iv :: x :: xs else x :: insertIv iv xs

/-- Sort intervals into travel order (ascending start fraction). -/
def sortIvs : List (ℚ × ℚ) → List (ℚ × ℚ)
  | [] => []
  | x :: xs => insertIv x (sortIvs xs)

/-- Merge consecutive intervals of a travel-ordered list whose gap is
within the epsilon tolerance. -/
def mergeSorted (eps : ℚ) : List (ℚ × ℚ) → List (ℚ × ℚ)
  | [] => []
  | [iv] => [iv]
  | iv1 :: iv2 :: rest =>
    if iv2.1 - iv1.2 ≤ eps then mergeSorted eps ((iv1.1, max iv1.2 iv2.2) :: rest)
    else iv1 :: mergeSorted eps (iv2 :: rest)
  termination_by l => l.length

/-- Modelled from the spec, §4.1: `compute_overlap_intervals` returns the
maximal intersecting sub-intervals in travel order, non-overlapping,
merged when touching within the epsilon tolerance. -/
def computeOverlapIntervals (eps : ℚ) (raw : List (ℚ × ℚ)) : List (ℚ × ℚ) :=
  mergeSorted eps (sortIvs raw)

/-- The default epsilon tolerance of §4.1 (a small fixed epsilon,
1e-9). -/
def defaultEps : ℚ := 1 / 1000000000

/-- One Topology Association row: along `path`, the interval
`[startPos, endPos]` (fractions of path length) belongs to topology
object `topo`, which is bound to zone `zone` through its Edge wrapper. -/
structure Assoc where
  path : ℕ
  zone : ℕ
  topo : ℕ
  startPos : ℚ
  endPos : ℚ
  deriving DecidableEq, Repr

/-- An Edge wrapper: binds one zone instance to one topology object
(one wrapper per (zone, topology object) pair; in this model each
topology object carries exactly one wrapper, so wrapper cleanup and
topology-object cleanup coincide). -/
structure Edge where
  zone : ℕ
  topo : ℕ
  deriving DecidableEq, Repr

/-- The Topology Association Store together with its Edge wrappers and a
fresh-identifier counter for topology objects. -/
structure Store where
  assocs : List Assoc
  edges : List Edge
  nextTopo : ℕ
  deriving DecidableEq, Repr

/-- Fresh association rows for path `p` against zone `z`: one row per
overlap interval, each with its own freshly numbered topology object. -/
def zoneFresh (p z base : ℕ) : List (ℚ × ℚ) → List Assoc
  | [] => []
  | iv :: ivs => ⟨p, z, base, iv.1, iv.2⟩ :: zoneFresh p z (base + 1) ivs

/-- Fresh Edge wrappers for zone `z`: one per new topology object. -/
def zoneEdges (z base : ℕ) : ℕ → List Edge
  | 0 => []
  | n + 1 => ⟨z, base⟩ :: zoneEdges z (base + 1) n

/-- Modelled from the spec, §4.2 (`on_path_upserted`): the fresh rows,
wrappers and updated counter for path `p` against the given zone list. -/
def freshForPath (eps : ℚ) (cov : Coverage) (p : ℕ) :
    List ℕ → ℕ → List Assoc × List Edge × ℕ
  | [], base => ([], [], base)
  | z :: zs, base =>
    let ivs := computeOverlapIntervals eps (cov z p)
    let rest := freshForPath eps cov p zs (base + ivs.length)
    (zoneFresh p z base ivs ++ rest.1, zoneEdges z base ivs.length ++ rest.2.1, rest.2.2)

/-- Modelled from the spec, §4.2 (`on_zone_upserted`): the fresh rows,
wrappers and updated counter for zone `z` against the given path list
(inverse bounding-box query). -/
def freshForZone (eps : ℚ) (cov : Coverage) (z : ℕ) :
    List ℕ → ℕ → List Assoc × List Edge × ℕ
  | [], base => ([], [], base)
  | p :: ps, base =>
    let ivs := computeOverlapIntervals eps (cov z p)
    let rest := freshForZone eps cov z ps (base + ivs.length)
    (zoneFresh p z base ivs ++ rest.1, zoneEdges z base ivs.length ++ rest.2.1, rest.2.2)

/-- Modelled from the spec, §4.2: `on_path_upserted(p)` deletes every
previously-existing association row tied to `p`, drops the Edge wrappers
(and their topology objects) thereby left with zero rows, and writes the
freshly computed set for every registered zone. -/
def onPathUpserted (eps : ℚ) (cov : Coverage) (zones : List ℕ) (s : Store) (p : ℕ) : Store :=
  let kept := s.assocs.filter (fun a => a.path != p)
  let keptEdges := s.edges.filter (fun e => kept.any (fun a => a.topo == e.topo))
  let fresh := freshForPath eps cov p zones s.nextTopo
  { assocs := kept ++ fresh.1
    edges := keptEdges ++ fresh.2.1
    nextTopo := fresh.2.2 }

/-- Modelled from the spec, §4.2: `on_path_deleted(p)` deletes every
association row referencing `p` and every Edge wrapper (with its
topology object) left with zero remaining rows. -/
def onPathDeleted (s : Store) (p : ℕ) : Store :=
  let kept := s.assocs.filter (fun a => a.path != p)
  { assocs := kept
    edges := s.edges.filter (fun e => kept.any (fun a => a.topo == e.topo))
    nextTopo := s.nextTopo }

/-- Modelled from the spec, §4.2: `on_zone_upserted(z)` recomputes only
zone `z`'s associations against all candidate paths, leaving other
zones' associations untouched. -/
def onZoneUpserted (eps : ℚ) (cov : Coverage) (paths : List ℕ) (s : Store) (z : ℕ) : Store :=
  let kept := s.assocs.filter (fun a => a.zone != z)
  let keptEdges := s.edges.filter (fun e => e.zone != z)
  let fresh := freshForZone eps cov z paths s.nextTopo
  { assocs := kept ++ fresh.1
    edges := keptEdges ++ fresh.2.1
    nextTopo := fresh.2.2 }

/-- Modelled from the spec, §4.2: `on_zone_deleted(z)` removes zone `z`'s
associations and wrappers, leaving other zones' untouched. -/
def onZoneDeleted (s : Store) (z : ℕ) : Store :=
  { assocs := s.assocs.filter (fun a => a.zone != z)
    edges := s.edges.filter (fun e => e.zone != z)
    nextTopo := s.nextTopo }

/-- The `[start, end]` fractions of the association rows for a given
(path, zone) pair, in store order. -/
def pairRows (s : Store) (p z : ℕ) : List (ℚ × ℚ) :=
  (s.assocs.filter (fun a => a.path == p && a.zone == z)).map
    (fun a => (a.startPos, a.endPos))

/-- The observable content of the association store: one
`(path, zone, start, end)` tuple per row, ignoring the internal
topology-object numbering (which the store regenerates on every
recomputation). -/
def snapshot (s : Store) : List (ℕ × ℕ × ℚ × ℚ) :=
  s.assocs.map (fun a => (a.path, a.zone, a.startPos, a.endPos))

/-- The observable association rows of one zone. -/
def zoneRowsSnap (s : Store) (z : ℕ) : List (ℕ × ℚ × ℚ) :=
  (s.assocs.filter (fun a => a.zone == z)).map
    (fun a => (a.path, a.startPos, a.endPos))

/-- The zone selection a `freshForPath` run contributes to one
(path, zone) pair: the overlap intervals once per occurrence of the zone
in the registry list. -/
def selectRows (eps : ℚ) (cov : Coverage) (p z : ℕ) : List ℕ → List (ℚ × ℚ)
  | [] => []
  | z' :: zs =>
    (if z' = z then computeOverlapIntervals eps (cov z p) else []) ++
      selectRows eps cov p z zs

/-- The observable rows a `freshForZone` run writes for zone `z`. -/
def rowsOfZone (eps : ℚ) (cov : Coverage) (z : ℕ) : List ℕ → List (ℕ × ℕ × ℚ × ℚ)
  | [] => []
  | q :: ps =>
    (computeOverlapIntervals eps (cov z q)).map (fun iv => (q, z, iv.1, iv.2)) ++
      rowsOfZone eps cov z ps

/-- The observable rows a `freshForPath` run writes for path `p`. -/
def rowsOfPath (eps : ℚ) (cov : Coverage) (p : ℕ) : List ℕ → List (ℕ × ℕ × ℚ × ℚ)
  | [] => []
  | z :: zs =>
    (computeOverlapIntervals eps (cov z p)).map (fun iv => (p, z, iv.1, iv.2)) ++
      rowsOfPath eps cov p zs

/-! ### DEM loader management command (`loaddem`)

`Command.handle` of
`src/geotrek/altimetry/management/commands/loaddem.py`, with the
file-system, GDAL and subprocess outcomes made explicit inputs and the
database writes made an explicit output trace. -/

/-- The environment a `loaddem` run observes: outcomes of the external
checks and subprocesses, the pre-existing DEM table, and the SQL script
`raster2pgsql` emits on success. -/
structure DemEnv where
  rasterCheckRet : ℕ
  fileExists : Bool
  gdalRecognized : Bool
  hasProjection : Bool
  hasGeoTransform : Bool
  bboxIntersects : Bool
  demExists : Bool
  replace : Bool
  gdalwarpRet : ℕ
  raster2pgsqlRet : ℕ
  sqlLines : List String
  deriving Repr

/-- A database write the command performs: dropping the `mnt` table, or
executing one line of the generated raster SQL. -/
inductive DbWrite where
  | dropTable : DbWrite
  | execSql : String → DbWrite
  deriving DecidableEq, Repr

/-- `Command.handle`: returns the database writes performed, in order,
together with the `CommandError` message raised, if any.  The reads
(`SELECT * FROM raster_columns`) are not writes and are not traced. -/
def handle (env : DemEnv) : List DbWrite × Option String :=
  if env.rasterCheckRet ≠ 0 then
    ([], some "Caught Exception: raster2pgsql failed")
  else if !env.fileExists then
    ([], some "DEM file does not exists at given path")
  else if !env.gdalRecognized then
    ([], some "DEM format is not recognized by GDAL.")
  else if !env.hasProjection then
    ([], some "DEM coordinate system is unknown.")
  else if !env.hasGeoTransform then
    ([], some "DEM extent is unknown.")
  else if !env.bboxIntersects then
    ([], some "DEM file does not match project extent")
  else if env.demExists && !env.replace then
    ([], some "DEM file exists, use --replace to overwrite")
  else
    let pre : List DbWrite := if env.demExists && env.replace then [DbWrite.dropTable] else []
    if env.gdalwarpRet ≠ 0 then
      (pre, some "Caught Exception: gdalwarp failed")
    else if env.raster2pgsqlRet ≠ 0 then
      (pre, some "Caught Exception: raster2pgsql failed")
    else
      (pre ++ env.sqlLines.map DbWrite.execSql, none)


end Geotrek

namespace Geotrek

/-- Two strings with distinct first characters stay distinct after
appending arbitrary suffixes to their two-character prefixes. -/
theorem prefixed_ne (a b : Char) (hab : a ≠ b) (s t : String) :
    String.mk (a :: '-' :: s.data) ≠ String.mk (b :: '-' :: t.data) := by
  intro h
  exact hab (by injection h with h'; exact (List.cons.injEq _ _ _ _ ▸ h').1)

/-- Filtering twice with the same predicate is the same as filtering
once. -/
theorem filter_self_filter {α : Type} (f : α → Bool) (l : List α) :
    (l.filter f).filter f = l.filter f := by
  apply List.filter_eq_self.mpr
  intro a ha
  exact (List.mem_filter.mp ha).2

/-- The rows `zoneFresh` writes, restricted to one (path, zone) pair and
projected to their interval fractions. -/
theorem zoneFresh_pair (p z z' : ℕ) (ivs : List (ℚ × ℚ)) : ∀ base,
    ((zoneFresh p z' base ivs).filter (fun a => a.path == p && a.zone == z)).map
      (fun a => (a.startPos, a.endPos)) = if z' = z then ivs else [] := by
  induction ivs with
  | nil => intro base; simp [zoneFresh]
  | cons iv ivs ih =>
    intro base
    by_cases hz : z' = z
    · subst hz
      simp [zoneFresh, List.filter_cons, ih (base + 1)]
    · simp [zoneFresh, List.filter_cons, hz, ih (base + 1)]

/-- The rows `freshForPath` writes for one (path, zone) pair are the zone
selection of the registry list, independently of the identifier base. -/
theorem freshForPath_pair (eps : ℚ) (cov : Coverage) (p z : ℕ) (zs : List ℕ) : ∀ base,
    (((freshForPath eps cov p zs base).1).filter
        (fun a => a.path == p && a.zone == z)).map (fun a => (a.startPos, a.endPos))
      = selectRows eps cov p z zs := by
  induction zs with
  | nil => intro base; simp [freshForPath, selectRows]
  | cons z' zs ih =>
    intro base
    simp only [freshForPath, selectRows, List.filter_append, List.map_append]
    rw [zoneFresh_pair, ih]
    by_cases hz : z' = z <;> simp [hz]

/-- When the zone registry lists a zone zero times, its selection is
empty. -/
theorem selectRows_count_zero (eps : ℚ) (cov : Coverage) (p z : ℕ) (zs : List ℕ)
    (h : zs.count z = 0) : selectRows eps cov p z zs = [] := by
  induction zs with
  | nil => simp [selectRows]
  | cons z' zs ih =>
    rw [List.count_cons] at h
    by_cases hz : z' = z
    · subst hz
      simp at h
    · simp [hz] at h
      simp [selectRows, hz, ih h]

/-- When the zone registry lists a zone exactly once, its selection is
exactly the computed overlap intervals. -/
theorem selectRows_count_one (eps : ℚ) (cov : Coverage) (p z : ℕ) (zs : List ℕ)
    (h : zs.count z = 1) : selectRows eps cov p z zs = computeOverlapIntervals eps (cov z p) := by
  induction zs with
  | nil => simp at h
  | cons z' zs ih =>
    rw [List.count_cons] at h
    by_cases hz : z' = z
    · subst hz
      simp at h
      simp [selectRows, selectRows_count_zero eps cov p z' zs h]
    · simp [hz] at h
      simp [selectRows, hz, ih h]

/-- Rows kept from before an upsert of path `p` never belong to the pair
(p, z). -/
theorem kept_pair_empty (l : List Assoc) (p z : ℕ) :
    ((l.filter (fun a => a.path != p)).filter (fun a => a.path == p && a.zone == z)) = [] := by
  apply List.filter_eq_nil_iff.mpr
  intro a ha
  have h1 := (List.mem_filter.mp ha).2
  simp only [bne_iff_ne, ne_eq] at h1
  simp [h1]

/-- After `on_path_upserted`, the rows for a pair (p, z) whose zone is
registered exactly once are exactly the computed overlap intervals. -/
theorem pairRows_upsert (eps : ℚ) (cov : Coverage) (zones : List ℕ) (s : Store)
    (p z : ℕ) (hz : zones.count z = 1) :
    pairRows (onPathUpserted eps cov zones s p) p z
      = computeOverlapIntervals eps (cov z p) := by
  unfold pairRows onPathUpserted
  simp only [List.filter_append, List.map_append]
  rw [kept_pair_empty, freshForPath_pair, selectRows_count_one eps cov p z zones hz]
  simp

end Geotrek

namespace Geotrek

/-- Two disjoint intervals in travel order whose gap exceeds the epsilon
tolerance pass through the intersection engine unmerged. -/
theorem computeOverlapIntervals_two (eps a b c d : ℚ) (hab : a ≤ b) (heps : 0 ≤ eps)
    (hgap : eps < c - b) :
    computeOverlapIntervals eps [(a, b), (c, d)] = [(a, b), (c, d)] := by
  have hbc : b < c := by linarith
  have hac : a ≤ c := le_trans hab (le_of_lt hbc)
  have h1 : sortIvs [(a, b), (c, d)] = [(a, b), (c, d)] := by
    simp [sortIvs, insertIv, hac]
  have h2 : ¬(c - b ≤ eps) := by linarith
  simp only [computeOverlapIntervals]
  rw [h1]
  simp [mergeSorted, h2]

/-- C1: a path `p` whose raw geometric overlap with zone `z` consists of
exactly two sub-intervals in travel order, separated by a gap that
exceeds the epsilon tolerance, ends up (after the maintainer reacts to
the path upsert) with exactly 2 Topology Association rows for (p, z),
their fractions ascending and non-overlapping, the two disjoint
intervals left unmerged. -/
theorem split_overlap_two_rows (eps : ℚ) (cov : Coverage) (zones : List ℕ) (s : Store)
    (p z : ℕ) (a b c d : ℚ)
    (hz : zones.count z = 1) (hcov : cov z p = [(a, b), (c, d)])
    (hab : a ≤ b) (heps : 0 ≤ eps) (hgap : eps < c - b) :
    pairRows (onPathUpserted eps cov zones s p) p z = [(a, b), (c, d)] ∧ b < c := by
  refine ⟨?_, by linarith⟩
  rw [pairRows_upsert eps cov zones s p z hz, hcov,
    computeOverlapIntervals_two eps a b c d hab heps hgap]

/-- Witness for C1: the geometry of the test suite's `Zone 1` against its
square path (raw overlap `[0, 1/6]` and `[5/6, 1]`) yields exactly the
two unmerged rows. -/
theorem split_overlap_two_rows_witness :
    pairRows
      (onPathUpserted defaultEps
        (fun zz pp => if zz = 5 && pp = 1 then [(0, 1/6), (5/6, 1)] else [])
        [5] ⟨[], [], 0⟩ 1) 1 5
      = [(0, 1/6), (5/6, 1)] ∧ (1/6 : ℚ) < 5/6 :=
  split_overlap_two_rows defaultEps
    (fun zz pp => if zz = 5 && pp = 1 then [(0, 1/6), (5/6, 1)] else [])
    [5] ⟨[], [], 0⟩ 1 5 0 (1/6) (5/6) 1
    (by decide) (by norm_num) (by norm_num)
    (by norm_num [defaultEps]) (by norm_num [defaultEps])

/-- C2: a path entirely outside the zone (empty raw intersection) gives
`compute_overlap_intervals = []` and no association row for the pair; a
path entirely inside (raw intersection `[(0,1)]`) gives the single
interval `[0,1]` and exactly one row with start 0.0 and end 1.0. -/
theorem outside_empty_inside_full (eps : ℚ) (cov : Coverage) (zones : List ℕ)
    (s : Store) (p z : ℕ) (hz : zones.count z = 1) :
    (cov z p = [] →
      computeOverlapIntervals eps (cov z p) = [] ∧
        pairRows (onPathUpserted eps cov zones s p) p z = [])
    ∧ (cov z p = [(0, 1)] →
      computeOverlapIntervals eps (cov z p) = [(0, 1)] ∧
        pairRows (onPathUpserted eps cov zones s p) p z = [(0, 1)]) := by
  constructor
  · intro hcov
    have hc : computeOverlapIntervals eps (cov z p) = [] := by
      rw [hcov]; simp [computeOverlapIntervals, sortIvs, mergeSorted]
    exact ⟨hc, by rw [pairRows_upsert eps cov zones s p z hz, hc]⟩
  · intro hcov
    have hc : computeOverlapIntervals eps (cov z p) = [(0, 1)] := by
      rw [hcov]; simp [computeOverlapIntervals, sortIvs, insertIv, mergeSorted]
    exact ⟨hc, by rw [pairRows_upsert eps cov zones s p z hz, hc]⟩

/-- Witness for C2: an entirely-outside pair (zone 7) and an
entirely-inside pair (zone 5) on concrete stores. -/
theorem outside_empty_inside_full_witness :
    pairRows
      (onPathUpserted defaultEps
        (fun zz _ => if zz = 5 then [(0, 1)] else []) [7] ⟨[], [], 0⟩ 1) 1 7 = []
    ∧ pairRows
      (onPathUpserted defaultEps
        (fun zz _ => if zz = 5 then [(0, 1)] else []) [5] ⟨[], [], 0⟩ 1) 1 5 = [(0, 1)] :=
  ⟨((outside_empty_inside_full defaultEps
      (fun zz _ => if zz = 5 then [(0, 1)] else []) [7] ⟨[], [], 0⟩ 1 7
      (by decide)).1 (by decide)).2,
   ((outside_empty_inside_full defaultEps
      (fun zz _ => if zz = 5 then [(0, 1)] else []) [5] ⟨[], [], 0⟩ 1 5
      (by decide)).2 (by norm_num)).2⟩

/-- C3: `on_path_deleted(p)` leaves no association row referencing `p`
and no Edge wrapper (hence, wrappers and topology objects being in
one-to-one correspondence here, no topology object) with zero remaining
association rows. -/
theorem path_delete_cleanup (s : Store) (p : ℕ) :
    (onPathDeleted s p).assocs.filter (fun a => a.path == p) = []
    ∧ (onPathDeleted s p).edges.filter
        (fun e => !(onPathDeleted s p).assocs.any (fun a => a.topo == e.topo)) = [] := by
  constructor
  · apply List.filter_eq_nil_iff.mpr
    intro a ha
    have h1 := (List.mem_filter.mp ha).2
    simp only [bne_iff_ne, ne_eq] at h1
    simp [h1]
  · apply List.filter_eq_nil_iff.mpr
    intro e he
    have h1 := (List.mem_filter.mp he).2
    simp only [onPathDeleted] at h1 ⊢
    simp [h1]

/-- Witness for C3: deleting path 1 from a store holding two of its rows
and their wrappers leaves no row for path 1 and no orphaned wrapper. -/
theorem path_delete_cleanup_witness :
    (onPathDeleted ⟨[⟨1, 5, 0, 0, 1⟩, ⟨2, 5, 1, 0, 1⟩], [⟨5, 0⟩, ⟨5, 1⟩], 2⟩ 1).assocs.filter
        (fun a => a.path == 1) = []
    ∧ (onPathDeleted ⟨[⟨1, 5, 0, 0, 1⟩, ⟨2, 5, 1, 0, 1⟩], [⟨5, 0⟩, ⟨5, 1⟩], 2⟩ 1).edges.filter
        (fun e =>
          !(onPathDeleted ⟨[⟨1, 5, 0, 0, 1⟩, ⟨2, 5, 1, 0, 1⟩], [⟨5, 0⟩, ⟨5, 1⟩], 2⟩ 1).assocs.any
            (fun a => a.topo == e.topo)) = [] :=
  path_delete_cleanup ⟨[⟨1, 5, 0, 0, 1⟩, ⟨2, 5, 1, 0, 1⟩], [⟨5, 0⟩, ⟨5, 1⟩], 2⟩ 1


/-- Every row `zoneFresh` writes belongs to the upserted path. -/
theorem zoneFresh_path_filter (p z : ℕ) (ivs : List (ℚ × ℚ)) : ∀ base,
    (zoneFresh p z base ivs).filter (fun a => a.path != p) = [] := by
  induction ivs with
  | nil => intro base; simp [zoneFresh]
  | cons iv ivs ih => intro base; simp [zoneFresh, List.filter_cons, ih (base + 1)]

/-- Every row `freshForPath` writes belongs to the upserted path. -/
theorem freshForPath_path_filter (eps : ℚ) (cov : Coverage) (p : ℕ) (zs : List ℕ) : ∀ base,
    ((freshForPath eps cov p zs base).1).filter (fun a => a.path != p) = [] := by
  induction zs with
  | nil => intro base; simp [freshForPath]
  | cons z zs ih =>
    intro base
    simp only [freshForPath, List.filter_append]
    rw [zoneFresh_path_filter, ih]
    simp

/-- The observable content of `zoneFresh` rows does not depend on the
identifier base. -/
theorem zoneFresh_snap (p z : ℕ) (ivs : List (ℚ × ℚ)) : ∀ base,
    (zoneFresh p z base ivs).map (fun a => (a.path, a.zone, a.startPos, a.endPos))
      = ivs.map (fun iv => (p, z, iv.1, iv.2)) := by
  induction ivs with
  | nil => intro base; simp [zoneFresh]
  | cons iv ivs ih => intro base; simp [zoneFresh, ih (base + 1)]

/-- The observable content of a `freshForPath` run does not depend on the
identifier base. -/
theorem freshForPath_snap (eps : ℚ) (cov : Coverage) (p : ℕ) (zs : List ℕ) : ∀ base,
    ((freshForPath eps cov p zs base).1).map (fun a => (a.path, a.zone, a.startPos, a.endPos))
      = rowsOfPath eps cov p zs := by
  induction zs with
  | nil => intro base; simp [freshForPath, rowsOfPath]
  | cons z zs ih =>
    intro base
    simp only [freshForPath, rowsOfPath, List.map_append]
    rw [zoneFresh_snap, ih]

/-- C5: `on_path_upserted(p)` is idempotent on the observable association
store: running it twice with unchanged geometry yields the identical row
set (same intervals, same count). -/
theorem upsert_idempotent (eps : ℚ) (cov : Coverage) (zones : List ℕ) (s : Store) (p : ℕ) :
    snapshot (onPathUpserted eps cov zones (onPathUpserted eps cov zones s p) p)
      = snapshot (onPathUpserted eps cov zones s p) := by
  unfold snapshot onPathUpserted
  simp only [List.filter_append, List.map_append]
  rw [filter_self_filter, freshForPath_path_filter, freshForPath_snap, freshForPath_snap]
  simp

/-- Witness for C5: idempotence on the concrete two-zone geometry of the
test suite. -/
theorem upsert_idempotent_witness :
    snapshot
      (onPathUpserted defaultEps
        (fun zz _ => if zz = 5 then [(0, 1/6), (5/6, 1)] else [(1/6, 5/6)]) [5, 6]
        (onPathUpserted defaultEps
          (fun zz _ => if zz = 5 then [(0, 1/6), (5/6, 1)] else [(1/6, 5/6)]) [5, 6]
          ⟨[], [], 0⟩ 1) 1)
      = snapshot
        (onPathUpserted defaultEps
          (fun zz _ => if zz = 5 then [(0, 1/6), (5/6, 1)] else [(1/6, 5/6)]) [5, 6]
          ⟨[], [], 0⟩ 1) :=
  upsert_idempotent defaultEps
    (fun zz _ => if zz = 5 then [(0, 1/6), (5/6, 1)] else [(1/6, 5/6)]) [5, 6]
    ⟨[], [], 0⟩ 1


/-- Every row `zoneFresh` writes belongs to its zone. -/
theorem zoneFresh_zone_filter (p z : ℕ) (ivs : List (ℚ × ℚ)) : ∀ base,
    (zoneFresh p z base ivs).filter (fun a => a.zone != z) = [] := by
  induction ivs with
  | nil => intro base; simp [zoneFresh]
  | cons iv ivs ih => intro base; simp [zoneFresh, List.filter_cons, ih (base + 1)]

/-- Every row `freshForZone` writes belongs to the upserted zone. -/
theorem freshForZone_zone_filter (eps : ℚ) (cov : Coverage) (z : ℕ) (ps : List ℕ) : ∀ base,
    ((freshForZone eps cov z ps base).1).filter (fun a => a.zone != z) = [] := by
  induction ps with
  | nil => intro base; simp [freshForZone]
  | cons p ps ih =>
    intro base
    simp only [freshForZone, List.filter_append]
    rw [zoneFresh_zone_filter, ih]
    simp

/-- No row `freshForZone` writes belongs to a different zone. -/
theorem freshForZone_other_filter (eps : ℚ) (cov : Coverage) (z z' : ℕ) (ps : List ℕ)
    (hz : z' ≠ z) : ∀ base,
    ((freshForZone eps cov z ps base).1).filter (fun a => a.zone == z') = [] := by
  induction ps with
  | nil => intro base; simp [freshForZone]
  | cons p ps ih =>
    intro base
    simp only [freshForZone, List.filter_append]
    rw [ih]
    have hzf : ∀ ivs b, (zoneFresh p z b ivs).filter (fun a => a.zone == z') = [] := by
      intro ivs
      induction ivs with
      | nil => intro b; simp [zoneFresh]
      | cons iv ivs ih2 =>
        intro b
        have hne : ¬(z = z') := fun he => hz he.symm
        simp [zoneFresh, List.filter_cons, hne, ih2 (b + 1)]
    rw [hzf]
    simp

/-- The observable content of a `freshForZone` run does not depend on the
identifier base. -/
theorem freshForZone_snap (eps : ℚ) (cov : Coverage) (z : ℕ) (ps : List ℕ) : ∀ base,
    ((freshForZone eps cov z ps base).1).map (fun a => (a.path, a.zone, a.startPos, a.endPos))
      = rowsOfZone eps cov z ps := by
  induction ps with
  | nil => intro base; simp [freshForZone, rowsOfZone]
  | cons p ps ih =>
    intro base
    simp only [freshForZone, rowsOfZone, List.map_append]
    rw [zoneFresh_snap, ih]

/-- Rows kept by the zone-`z` deletion step of a zone upsert keep their
membership in any other zone's row set. -/
theorem kept_other_zone (l : List Assoc) (z z' : ℕ) (hz : z' ≠ z) :
    (l.filter (fun a => a.zone != z)).filter (fun a => a.zone == z')
      = l.filter (fun a => a.zone == z') := by
  induction l with
  | nil => simp
  | cons a l ih =>
    by_cases h : a.zone = z'
    · have h2 : a.zone ≠ z := by rw [h]; exact hz
      simp [List.filter_cons, h, h2, hz, ih]
    · by_cases h3 : a.zone = z <;>
        simp [List.filter_cons, h, h3, hz, Ne.symm hz, ih]

/-- Shrinking zone `z`'s geometry so path `p` no longer intersects it
(while all other paths' overlap is unchanged) turns the zone's fresh row
set into exactly the old one minus the rows of the pair (p, z). -/
theorem rowsOfZone_shrink (eps : ℚ) (covOld covNew : Coverage) (z p : ℕ) (ps : List ℕ)
    (hshrunk : covNew z p = [])
    (hsame : ∀ q, q ≠ p → covNew z q = covOld z q) :
    rowsOfZone eps covNew z ps
      = (rowsOfZone eps covOld z ps).filter (fun r => !(r.1 == p && r.2.1 == z)) := by
  induction ps with
  | nil => simp [rowsOfZone]
  | cons q ps ih =>
    simp only [rowsOfZone, List.filter_append]
    rw [ih]
    congr 1
    by_cases hq : q = p
    · subst hq
      rw [hshrunk]
      have hce : computeOverlapIntervals eps [] = [] := by
        simp [computeOverlapIntervals, sortIvs, mergeSorted]
      rw [hce]
      symm
      apply List.filter_eq_nil_iff.mpr
      intro r hr
      obtain ⟨iv, hiv, rfl⟩ := List.mem_map.mp hr
      simp
    · rw [hsame q hq]
      symm
      apply List.filter_eq_self.mpr
      intro r hr
      obtain ⟨iv, hiv, rfl⟩ := List.mem_map.mp hr
      simp [hq]

/-- C4: `on_zone_upserted(z)` and `on_zone_deleted(z)` leave every
association row belonging to any other zone `z'` unchanged, and
shrinking `z`'s polygon so it no longer intersects a previously-touching
path `p` removes exactly the rows of the pair (p, z) and no others. -/
theorem zone_ops_frame_and_shrink (eps : ℚ) (covOld covNew : Coverage) (paths : List ℕ)
    (s : Store) (z z' p : ℕ)
    (hz : z' ≠ z) (hshrunk : covNew z p = [])
    (hsame : ∀ q, q ≠ p → covNew z q = covOld z q) :
    zoneRowsSnap (onZoneUpserted eps covNew paths s z) z' = zoneRowsSnap s z'
    ∧ zoneRowsSnap (onZoneDeleted s z) z' = zoneRowsSnap s z'
    ∧ snapshot (onZoneUpserted eps covNew paths (onZoneUpserted eps covOld paths s z) z)
        = (snapshot (onZoneUpserted eps covOld paths s z)).filter
            (fun r => !(r.1 == p && r.2.1 == z)) := by
  refine ⟨?_, ?_, ?_⟩
  · unfold zoneRowsSnap onZoneUpserted
    simp only [List.filter_append, List.map_append]
    rw [freshForZone_other_filter eps covNew z z' paths hz, kept_other_zone s.assocs z z' hz]
    simp
  · unfold zoneRowsSnap onZoneDeleted
    rw [kept_other_zone s.assocs z z' hz]
  · unfold snapshot onZoneUpserted
    simp only [List.filter_append, List.map_append]
    rw [filter_self_filter, freshForZone_zone_filter]
    rw [freshForZone_snap, freshForZone_snap]
    rw [rowsOfZone_shrink eps covOld covNew z p paths hshrunk hsame]
    have hkept : ((s.assocs.filter (fun a => a.zone != z)).map
          (fun a => (a.path, a.zone, a.startPos, a.endPos))).filter
          (fun r => !(r.1 == p && r.2.1 == z))
        = (s.assocs.filter (fun a => a.zone != z)).map
          (fun a => (a.path, a.zone, a.startPos, a.endPos)) := by
      apply List.filter_eq_self.mpr
      intro r hr
      obtain ⟨a, ha, rfl⟩ := List.mem_map.mp hr
      have h1 := (List.mem_filter.mp ha).2
      simp only [bne_iff_ne, ne_eq] at h1
      simp [h1]
    rw [hkept]
    simp

/-- Witness for C4: zone 5 shrinks away from path 1 while path 2 keeps
its overlap; zone 6's row is untouched. -/
theorem zone_ops_frame_and_shrink_witness :
    zoneRowsSnap
      (onZoneUpserted defaultEps
        (fun zz q => if zz = 5 then (if q = 1 then [] else [(1/4, 1)]) else [])
        [1, 2] ⟨[⟨1, 6, 0, 0, 1⟩], [⟨6, 0⟩], 1⟩ 5) 6
      = zoneRowsSnap (⟨[⟨1, 6, 0, 0, 1⟩], [⟨6, 0⟩], 1⟩ : Store) 6 :=
  (zone_ops_frame_and_shrink defaultEps
    (fun zz q => if zz = 5 then (if q = 1 then [(0, 1/2)] else [(1/4, 1)]) else [])
    (fun zz q => if zz = 5 then (if q = 1 then [] else [(1/4, 1)]) else [])
    [1, 2] ⟨[⟨1, 6, 0, 0, 1⟩], [⟨6, 0⟩], 1⟩ 5 6 1
    (by decide) (by norm_num)
    (by intro q hq; simp [hq])).1


/-- C7: the DEM loader validates the input raster before loading
anything: a missing file, an unknown coordinate system, or a bounding
box that does not intersect the configured project extent makes the
command fail with a `CommandError`, and no database write happens in any
of these failure cases. -/
theorem loaddem_validation (env : DemEnv)
    (h : env.fileExists = false ∨ env.hasProjection = false ∨ env.bboxIntersects = false) :
    (handle env).1 = [] ∧ (handle env).2.isSome = true := by
  unfold handle
  rcases h with h | h | h <;> simp [h] <;> split_ifs <;> simp_all

/-- Witness for C7: a run on a missing DEM file errors out with no
database write. -/
theorem loaddem_validation_witness :
    (handle ⟨0, false, true, true, true, true, false, false, 0, 0, []⟩).1 = []
    ∧ (handle ⟨0, false, true, true, true, true, false, false, 0, 0, []⟩).2.isSome = true :=
  loaddem_validation ⟨0, false, true, true, true, true, false, false, 0, 0, []⟩ (Or.inl rfl)

/-- C8: with `--replace` on an existing DEM, the `mnt` table is dropped
before the reprojection/conversion subprocesses run; if `gdalwarp` or
`raster2pgsql` then fails, the command raises a `CommandError` without
restoring the dropped table: the write trace is exactly the drop. -/
theorem loaddem_replace_drop_lost (env : DemEnv)
    (h0 : env.rasterCheckRet = 0) (h1 : env.fileExists = true)
    (h2 : env.gdalRecognized = true) (h3 : env.hasProjection = true)
    (h4 : env.hasGeoTransform = true) (h5 : env.bboxIntersects = true)
    (h6 : env.demExists = true) (h7 : env.replace = true)
    (h8 : env.gdalwarpRet ≠ 0 ∨ env.raster2pgsqlRet ≠ 0) :
    (handle env).1 = [DbWrite.dropTable] ∧ (handle env).2.isSome = true := by
  unfold handle
  rcases h8 with h8 | h8
  · simp [h0, h1, h2, h3, h4, h5, h6, h7, h8]
  · by_cases hg : env.gdalwarpRet = 0 <;>
      simp [h0, h1, h2, h3, h4, h5, h6, h7, h8, hg]

/-- Witness for C8: a failing `gdalwarp` after a `--replace` drop leaves
exactly the drop in the write trace, with an error raised. -/
theorem loaddem_replace_drop_lost_witness :
    (handle ⟨0, true, true, true, true, true, true, true, 1, 0, []⟩).1 = [DbWrite.dropTable]
    ∧ (handle ⟨0, true, true, true, true, true, true, true, 1, 0, []⟩).2.isSome = true :=
  loaddem_replace_drop_lost ⟨0, true, true, true, true, true, true, true, 1, 0, []⟩
    rfl rfl rfl rfl rfl rfl rfl rfl (Or.inl (by decide))

/-- C9: each trek parser's `filter_eid` prepends its fixed two-character
prefix (`P-`, `V-`, `E-`, `C-`), so eids produced by any two distinct
parsers are never equal. -/
theorem trek_eid_prefixed_distinct (v w : String) :
    filter_eid_pedestre v = "P-" ++ v ∧ filter_eid_vtt v = "V-" ++ v
    ∧ filter_eid_equestre v = "E-" ++ v ∧ filter_eid_avelo v = "C-" ++ v
    ∧ filter_eid_pedestre v ≠ filter_eid_vtt w
    ∧ filter_eid_pedestre v ≠ filter_eid_equestre w
    ∧ filter_eid_pedestre v ≠ filter_eid_avelo w
    ∧ filter_eid_vtt v ≠ filter_eid_equestre w
    ∧ filter_eid_vtt v ≠ filter_eid_avelo w
    ∧ filter_eid_equestre v ≠ filter_eid_avelo w := by
  refine ⟨rfl, rfl, rfl, rfl, ?_, ?_, ?_, ?_, ?_, ?_⟩ <;>
    (intro h
     have h2 := congrArg String.data h
     simp [filter_eid_pedestre, filter_eid_vtt, filter_eid_equestre, filter_eid_avelo,
       String.data_append] at h2)

/-- Witness for C9: the pedestrian and mountain-bike eids of the same
source value differ. -/
theorem trek_eid_prefixed_distinct_witness :
    filter_eid_pedestre "7" ≠ filter_eid_vtt "7" :=
  (trek_eid_prefixed_distinct "7" "7").2.2.2.2.1

/-- C10 (amended): `filter_geom` raises `RowImportError` exactly when the
latitude or the longitude is the empty string; when both are non-empty
and numeric it returns the WGS84 point of the parsed longitude/latitude
transformed to the project srid; when both are non-empty but either is
non-numeric, an uncaught `ValueError` (not `RowImportError`) results. -/
theorem filter_geom_spec (srid : ℕ) (lat lng : String) :
    ((∃ msg, filter_geom srid (lat, lng) = Except.error (ImportErr.rowImportError msg)) ↔
      (lng = "" ∨ lat = ""))
    ∧ (∀ xv yv, pyFloat lng = some xv → pyFloat lat = some yv → lng ≠ "" → lat ≠ "" →
        filter_geom srid (lat, lng) = Except.ok (specTransform srid ⟨xv, yv, 4326⟩))
    ∧ (lng ≠ "" → lat ≠ "" → (pyFloat lng = none ∨ pyFloat lat = none) →
        filter_geom srid (lat, lng) = Except.error ImportErr.valueError) := by
  rcases hx : pyFloat lng with _ | xv <;> rcases hy : pyFloat lat with _ | yv <;>
    by_cases hlng : lng = "" <;> by_cases hlat : lat = "" <;>
      simp [filter_geom, hx, hy, hlng, hlat]

/-- Witness for C10: a non-empty, non-numeric longitude makes the result
the uncaught `ValueError`. -/
theorem filter_geom_spec_witness :
    filter_geom 2154 ("47", "x3") = Except.error ImportErr.valueError :=
  (filter_geom_spec 2154 "47" "x3").2.2 (by decide) (by decide) (Or.inl rfl)

/-- Counterexample for C10 as stated: with latitude `"abc"` and longitude
`"1.0"` neither input is the empty string, yet `filter_geom` does not
return a point — the `float()` conversion raises an uncaught
`ValueError`. -/
theorem filter_geom_nonnumeric_cex :
    ("abc" : String) ≠ "" ∧ ("1.0" : String) ≠ ""
    ∧ filter_geom 2154 ("abc", "1.0") = Except.error ImportErr.valueError :=
  ⟨by decide, by decide, by rfl⟩

end Geotrek
